import Mathlib

/-!
Verification of the libiio local backend (`local.c`) against its
natural-language specification.  The C functions are shallowly embedded as
Lean functions; machine integers are modelled as `Int`/`Nat` with explicit
wrap-around (`% 2^32`) where the C code performs unsigned or
implementation-defined conversions; the filesystem and the `poll`/`read`/
`write` syscalls are modelled as explicit oracle values passed to the
embedded functions.
-/

namespace LocalBackend

/-! ## Errno codes (Linux values, as used by the C source) -/

def EINVAL : Int := 22
def ENOSYS : Int := 38
def EBADF : Int := 9
def ETIMEDOUT : Int := 110
def EBUSY : Int := 16
def EIO_ : Int := 5
def EAGAIN : Int := 11
def EINTR : Int := 4
def ENOENT : Int := 2
def EACCES : Int := 13
def EFBIG : Int := 27

def INT_MAX : Int := 2147483647

/-! ## Timeout utility (`get_rel_timeout_ms`, local.c lines 200-221) -/

/-- Model of `struct timespec`: seconds and nanoseconds as mathematical
integers.  A timespec produced by `clock_gettime` has `0 ≤ nsec < 10^9`,
captured by `validTs` below. -/
structure Timespec where
  sec : Int
  nsec : Int
  deriving DecidableEq

def validTs (t : Timespec) : Prop := 0 ≤ t.nsec ∧ t.nsec < 1000000000

instance (t : Timespec) : Decidable (validTs t) := by
  unfold validTs; infer_instance

/-- Absolute time of a timespec in nanoseconds. -/
def tnsec (t : Timespec) : Int := t.sec * 1000000000 + t.nsec

/-- Two's-complement conversion of a 32-bit unsigned value to a C `int`
(the conversion is implementation-defined in C; every supported compiler
wraps, which is what is modelled here). -/
def uintToInt (n : Nat) : Int :=
  let m : Nat := n % 4294967296
  if m < 2147483648 then (m : Int) else (m : Int) - 4294967296

/-- The computation of `diff_ms` in `get_rel_timeout_ms`:
`(now.tv_sec - start->tv_sec) * 1000 + (now.tv_nsec - start->tv_nsec) / 1000000`
with C's truncating signed division (`Int.tdiv`). -/
def diff_ms (start now : Timespec) : Int :=
  (now.sec - start.sec) * 1000 + (now.nsec - start.nsec).tdiv 1000000

/-- Embedding of `get_rel_timeout_ms(struct timespec *start, unsigned int
timeout_rel)`, the second parameter given as a `Nat` below `2^32`.  `now` is
the value read from `CLOCK_MONOTONIC`.  The comparison
`diff_ms >= (int) timeout_rel` converts the unsigned argument to `int`
(`uintToInt`); the C `timeout_rel -= diff_ms` is unsigned arithmetic,
modelled mod `2^32`. -/
def get_rel_timeout_ms (start now : Timespec) (timeout_rel : Nat) : Int :=
  if timeout_rel = 0 then -1
  else if diff_ms start now ≥ uintToInt timeout_rel then 0
  else
    let t : Nat :=
      if diff_ms start now > 0
      then (((timeout_rel : Int) - diff_ms start now) % 4294967296).toNat
      else timeout_rel
    if (t : Int) > INT_MAX then INT_MAX else (t : Int)

/-! ### Arithmetic facts about the truncating division by 10^6 -/

theorem tdiv_1e6_bounds (x : Int) :
    x - 999999 ≤ 1000000 * x.tdiv 1000000 ∧
    1000000 * x.tdiv 1000000 ≤ x + 999999 ∧
    (0 ≤ x → 1000000 * x.tdiv 1000000 ≤ x ∧ 0 ≤ x.tdiv 1000000) ∧
    (x ≤ 0 → x ≤ 1000000 * x.tdiv 1000000 ∧ x.tdiv 1000000 ≤ 0) := by
  rcases le_or_lt 0 x with hx | hx
  · have h := Int.tdiv_eq_ediv hx (by norm_num : (0:Int) ≤ 1000000)
    have h1 := Int.ediv_add_emod x 1000000
    have h2 := Int.emod_nonneg x (by norm_num : (1000000:Int) ≠ 0)
    have h3 := Int.emod_lt_of_pos x (by norm_num : (0:Int) < 1000000)
    rw [h]
    omega
  · have hneg : x.tdiv 1000000 = -((-x).tdiv 1000000) := by
      conv_lhs => rw [← neg_neg x]
      rw [Int.neg_tdiv]
    have h := Int.tdiv_eq_ediv (a := -x) (b := 1000000) (by omega)
      (by norm_num : (0:Int) ≤ 1000000)
    have h1 := Int.ediv_add_emod (-x) 1000000
    have h2 := Int.emod_nonneg (-x) (by norm_num : (1000000:Int) ≠ 0)
    have h3 := Int.emod_lt_of_pos (-x) (by norm_num : (0:Int) < 1000000)
    rw [hneg, h]
    omega

theorem diff_ms_nonneg (start now : Timespec)
    (hs : validTs start) (hn : validTs now)
    (h : tnsec start ≤ tnsec now) : 0 ≤ diff_ms start now := by
  obtain ⟨hs1, hs2⟩ := hs
  obtain ⟨hn1, hn2⟩ := hn
  obtain ⟨b1, b2, -, -⟩ := tdiv_1e6_bounds (now.nsec - start.nsec)
  unfold tnsec at h
  unfold diff_ms
  omega

theorem diff_ms_mono (start a b : Timespec)
    (hs : validTs start) (ha : validTs a) (hb : validTs b)
    (hab : tnsec a ≤ tnsec b) :
    diff_ms start a ≤ diff_ms start b := by
  obtain ⟨hs1, hs2⟩ := hs
  obtain ⟨ha1, ha2⟩ := ha
  obtain ⟨hb1, hb2⟩ := hb
  obtain ⟨A1, A2, A3, A4⟩ := tdiv_1e6_bounds (a.nsec - start.nsec)
  obtain ⟨B1, B2, B3, B4⟩ := tdiv_1e6_bounds (b.nsec - start.nsec)
  unfold tnsec at hab
  unfold diff_ms
  rcases le_or_lt 0 (a.nsec - start.nsec) with h1 | h1 <;>
    rcases le_or_lt 0 (b.nsec - start.nsec) with h2 | h2
  · obtain ⟨A5, A6⟩ := A3 h1
    obtain ⟨B5, B6⟩ := B3 h2
    omega
  · obtain ⟨A5, A6⟩ := A3 h1
    obtain ⟨B5, B6⟩ := B4 (by omega)
    omega
  · obtain ⟨A5, A6⟩ := A4 (by omega)
    obtain ⟨B5, B6⟩ := B3 h2
    omega
  · obtain ⟨A5, A6⟩ := A4 (by omega)
    obtain ⟨B5, B6⟩ := B4 (by omega)
    omega

theorem diff_ms_gap (start a b : Timespec) (K : Nat)
    (hs : validTs start) (ha : validTs a) (hb : validTs b)
    (hgap : tnsec a + (K : Int) * 1000000 ≤ tnsec b) :
    diff_ms start a + (K : Int) ≤ diff_ms start b + 1 := by
  obtain ⟨hs1, hs2⟩ := hs
  obtain ⟨ha1, ha2⟩ := ha
  obtain ⟨hb1, hb2⟩ := hb
  obtain ⟨A1, A2, -, -⟩ := tdiv_1e6_bounds (a.nsec - start.nsec)
  obtain ⟨B1, B2, -, -⟩ := tdiv_1e6_bounds (b.nsec - start.nsec)
  unfold tnsec at hgap
  unfold diff_ms
  omega

/-- For timeouts representable as a positive C `int`, `get_rel_timeout_ms`
computes `total - elapsed` clamped below at `0`. -/
theorem get_rel_timeout_ms_eq (start now : Timespec) (total : Nat)
    (hd : 0 ≤ diff_ms start now) (h1 : 0 < total)
    (h2 : (total : Int) ≤ INT_MAX) :
    get_rel_timeout_ms start now total =
      max 0 ((total : Int) - diff_ms start now) := by
  unfold get_rel_timeout_ms
  have huint : uintToInt total = (total : Int) := by
    unfold uintToInt
    unfold INT_MAX at h2
    have hm : total % 4294967296 = total := Nat.mod_eq_of_lt (by omega)
    rw [hm]
    have : total < 2147483648 := by omega
    simp [this]
  rw [if_neg (by omega)]
  rw [huint]
  rcases le_or_lt ((total : Int)) (diff_ms start now) with hge | hlt
  · rw [if_pos (by omega)]
    omega
  · rw [if_neg (by omega)]
    rcases lt_or_le 0 (diff_ms start now) with hpos | hnp
    · have harg : ((total : Int) - diff_ms start now) % 4294967296
          = (total : Int) - diff_ms start now :=
        Int.emod_eq_of_lt (by omega) (by unfold INT_MAX at h2; omega)
      simp only [if_pos hpos, harg]
      rw [Int.toNat_of_nonneg (by omega)]
      rw [if_neg (by unfold INT_MAX at h2 ⊢; omega)]
      omega
    · simp only [if_neg (by omega : ¬ diff_ms start now > 0)]
      rw [if_neg (by omega)]
      omega

/-- Claim C9 (amended): for a fixed start time and a fixed total relative
timeout `0 < total ≤ INT_MAX`, a second evaluation of `get_rel_timeout_ms`
at a monotonic instant at least `K` ms later yields a result that is
nonnegative, never larger than the first result, and smaller than the
first result by at least `K - 1` ms (or clamped at `0`).  The loss of one
millisecond relative to the claimed `K` comes from the truncating
millisecond conversion of the two nanosecond differences. -/
theorem c9_timeout_monotonic_amended
    (start now1 now2 : Timespec) (total K : Nat)
    (hs : validTs start) (h1 : validTs now1) (h2 : validTs now2)
    (h01 : tnsec start ≤ tnsec now1)
    (hK : tnsec now1 + (K : Int) * 1000000 ≤ tnsec now2)
    (htot : 0 < total) (hmax : (total : Int) ≤ INT_MAX) :
    0 ≤ get_rel_timeout_ms start now2 total ∧
    get_rel_timeout_ms start now2 total ≤ get_rel_timeout_ms start now1 total ∧
    get_rel_timeout_ms start now2 total ≤
      max (get_rel_timeout_ms start now1 total - ((K : Int) - 1)) 0 := by
  have hd1 : 0 ≤ diff_ms start now1 := diff_ms_nonneg start now1 hs h1 h01
  have h12 : tnsec now1 ≤ tnsec now2 := by
    have : (0 : Int) ≤ (K : Int) * 1000000 := by positivity
    omega
  have hd2 : 0 ≤ diff_ms start now2 :=
    diff_ms_nonneg start now2 hs h2 (le_trans h01 h12)
  have hmono : diff_ms start now1 ≤ diff_ms start now2 :=
    diff_ms_mono start now1 now2 hs h1 h2 h12
  have hgap : diff_ms start now1 + (K : Int) ≤ diff_ms start now2 + 1 :=
    diff_ms_gap start now1 now2 K hs h1 h2 hK
  rw [get_rel_timeout_ms_eq start now1 total hd1 htot hmax,
      get_rel_timeout_ms_eq start now2 total hd2 htot hmax]
  omega

/-- Witness for C9 at concrete inputs: start = 0.5 s, first reading at
1.100000001 s, second reading 700.999998 ms later. -/
theorem c9_timeout_monotonic_witness :
    0 ≤ get_rel_timeout_ms ⟨0, 500000000⟩ ⟨1, 800999999⟩ 5000 ∧
    get_rel_timeout_ms ⟨0, 500000000⟩ ⟨1, 800999999⟩ 5000 ≤
      get_rel_timeout_ms ⟨0, 500000000⟩ ⟨1, 100000001⟩ 5000 ∧
    get_rel_timeout_ms ⟨0, 500000000⟩ ⟨1, 800999999⟩ 5000 ≤
      max (get_rel_timeout_ms ⟨0, 500000000⟩ ⟨1, 100000001⟩ 5000 -
        (((700 : Nat) : Int) - 1)) 0 :=
  c9_timeout_monotonic_amended ⟨0, 500000000⟩ ⟨1, 100000001⟩ ⟨1, 800999999⟩
    5000 700 (by decide) (by decide) (by decide) (by decide) (by decide)
    (by decide) (by decide)

/-- Claim C9 (counterexample to the claim as stated): the second evaluation
happens at least 700 ms after the first (in monotonic time), yet the result
shrinks by only 699 ms, because the elapsed-millisecond computation
truncates the two nanosecond differences asymmetrically. -/
theorem c9_timeout_monotonic_counterexample :
    tnsec ⟨1, 100000001⟩ + 700 * 1000000 ≤ tnsec ⟨1, 800999999⟩ ∧
    get_rel_timeout_ms ⟨0, 500000000⟩ ⟨1, 100000001⟩ 5000 = 4399 ∧
    get_rel_timeout_ms ⟨0, 500000000⟩ ⟨1, 800999999⟩ 5000 = 3700 ∧
    ¬((4399 : Int) - 3700 ≥ 700) := by decide

/-- Claim C2: evaluation at the failing input.  For a total relative
timeout of `2^31` (representable as `unsigned int` but not as `int`) and
zero elapsed time, the code returns `0` (treats the timeout as already
expired) instead of the INT_MAX clamp demanded by the specification and by
the function's own (unreachable) `timeout_rel > INT_MAX` branch: the
comparison `diff_ms >= (int) timeout_rel` converts the unsigned timeout to
a negative `int`. -/
theorem c2_rel_timeout_large_total_code_bug :
    get_rel_timeout_ms ⟨0, 0⟩ ⟨0, 0⟩ 2147483648 = 0 ∧
    diff_ms ⟨0, 0⟩ ⟨0, 0⟩ = 0 ∧
    ¬((0 : Int) = min INT_MAX ((2147483648 : Int) - diff_ms ⟨0, 0⟩ ⟨0, 0⟩)) := by
  decide

/-! ## Cancellable readiness wait (`buffer_check_ready`, local.c lines 223-259)

The `poll` syscall is modelled as an oracle: each attempt yields a
`PollOutcome` (return value, `errno` on failure, and the relevant bits of
the two `revents` fields).  The C retry loop `do { ... } while (ret == -1 &&
errno == EINTR)` is modelled by taking the first outcome of the attempt list
that is not an EINTR failure. -/

/-- Outcome of one `poll(pollfd, 2, timeout_rel)` call.  `revents0Match` is
the bit test `pollfd[0].revents & events`, `revents0Nval` is
`pollfd[0].revents & POLLNVAL`, and `cancelIn` is `pollfd[1].revents &
POLLIN` (the cancellation eventfd). -/
structure PollOutcome where
  ret : Int
  errno : Int
  revents0Match : Bool
  revents0Nval : Bool
  cancelIn : Bool
  deriving DecidableEq

def isEintrFailure (o : PollOutcome) : Bool := o.ret == -1 && o.errno == EINTR

/-- Translation of the branch cascade after the poll retry loop. -/
def buffer_check_ready_post (hasStart : Bool) (o : PollOutcome) : Int :=
  if o.cancelIn then -EBADF
  else if o.ret < 0 then -o.errno
  else if o.ret = 0 then (if hasStart then -ETIMEDOUT else -EBUSY)
  else if o.revents0Nval then -EBADF
  else if ¬ o.revents0Match then -EIO_
  else 0

/-- Embedding of `buffer_check_ready`.  `hasStart` records whether a start
time was supplied (`start != NULL`); `attempts` is the oracle sequence of
poll outcomes, of which the EINTR failures are retried.  The result is
`none` only if every attempt is an EINTR failure (the C loop would still be
running). -/
def buffer_check_ready (hasStart : Bool) (attempts : List PollOutcome) :
    Option Int :=
  (attempts.find? (fun o => ¬ isEintrFailure o)).map
    (buffer_check_ready_post hasStart)

/-- Claim C5: once the poll retry loop settles on an outcome `o`:
a signalled cancellation descriptor yields `-EBADF`; expiry (`ret = 0`)
yields `-ETIMEDOUT` when a start time was supplied and `-EBUSY` when not. -/
theorem c5_check_ready_cancel_timeout_busy
    (hasStart : Bool) (attempts : List PollOutcome) (o : PollOutcome)
    (hfind : attempts.find? (fun o => ¬ isEintrFailure o) = some o) :
    (o.cancelIn = true → buffer_check_ready hasStart attempts = some (-EBADF)) ∧
    (o.cancelIn = false → o.ret = 0 → hasStart = true →
      buffer_check_ready hasStart attempts = some (-ETIMEDOUT)) ∧
    (o.cancelIn = false → o.ret = 0 → hasStart = false →
      buffer_check_ready hasStart attempts = some (-EBUSY)) := by
  unfold buffer_check_ready
  rw [hfind]
  unfold buffer_check_ready_post
  refine ⟨fun hc => ?_, fun hc hr hs => ?_, fun hc hr hs => ?_⟩
  · simp [hc]
  · subst hs
    simp [hc, hr]
  · subst hs
    simp [hc, hr]

/-- Witness for C5: a first poll attempt interrupted by a signal, then an
expired wait with a start time supplied. -/
theorem c5_check_ready_witness :
    buffer_check_ready true
      [⟨-1, EINTR, false, false, false⟩, ⟨0, 0, false, false, false⟩] =
      some (-ETIMEDOUT) :=
  (c5_check_ready_cancel_timeout_busy true
    [⟨-1, EINTR, false, false, false⟩, ⟨0, 0, false, false, false⟩]
    ⟨0, 0, false, false, false⟩ (by decide)).2.1 rfl rfl rfl

/-! ## Byte-stream fallback transfer (`local_readbuf` / `local_writebuf`,
local.c lines 327-420)

The readiness wait and the `read`/`write` syscalls are oracles: each
iteration of the `while (len > 0)` loop consumes one `RWStep`, holding the
result of `buffer_check_ready` for that iteration and (when the wait
succeeds) the result of the `read`/`write` call after its internal EINTR
retry loop. -/

/-- Result of a `read`/`write` syscall once EINTR retries are done:
`fail e` is a `-1` return with `errno = e`; `done n` is a return of `n ≥ 0`
bytes. -/
inductive RWResult where
  | fail (e : Int)
  | done (n : Nat)
  deriving DecidableEq

structure RWStep where
  ready : Int
  rw : RWResult
  deriving DecidableEq

/-- One execution of the transfer loop.  Returns `(transferred, ret)` where
`transferred` is the cursor advance `ptr - dst` and `ret` the C variable
`ret` at loop exit; `none` if the oracle list is exhausted while the loop
still runs.  On `EAGAIN` from the syscall the C code `continue`s with
`ret = -1` still in hand. -/
def rw_loop : List RWStep → Nat → Nat → Int → Option (Nat × Int)
  | _, transferred, 0, ret => some (transferred, ret)
  | [], _, _ + 1, _ => none
  | s :: rest, transferred, len + 1, _ =>
    if s.ready < 0 then some (transferred, s.ready)
    else match s.rw with
      | .fail e =>
        if e = EAGAIN then rw_loop rest transferred (len + 1) (-1)
        else some (transferred, -e)
      | .done 0 => some (transferred, -EIO_)
      | .done (n + 1) => rw_loop rest (transferred + (n + 1)) (len + 1 - (n + 1))
          ((n : Int) + 1)

/-- Embedding of `local_readbuf`.  `fdOpen` models `buffer->fd != -1`. -/
def local_readbuf (fdOpen : Bool) (len : Nat) (steps : List RWStep) :
    Option Int :=
  if ¬ fdOpen then some (-EBADF)
  else if len = 0 then some 0
  else (rw_loop steps 0 len 0).map (fun r =>
    if (r.2 > 0 ∨ r.2 = -EAGAIN) ∧ r.1 > 0 then (r.1 : Int) else r.2)

/-- Embedding of `local_writebuf`: identical control flow over the `POLLOUT`
readiness wait and the `write` syscall. -/
def local_writebuf (fdOpen : Bool) (len : Nat) (steps : List RWStep) :
    Option Int :=
  if ¬ fdOpen then some (-EBADF)
  else if len = 0 then some 0
  else (rw_loop steps 0 len 0).map (fun r =>
    if (r.2 > 0 ∨ r.2 = -EAGAIN) ∧ r.1 > 0 then (r.1 : Int) else r.2)

/-- Claim C3 (counterexample to the claim as stated): a read of 10 bytes
that transfers 3 bytes and then times out on the second readiness wait
returns `-ETIMEDOUT`, not the positive partial count 3 (and the same for a
write). -/
theorem c3_partial_transfer_counterexample :
    local_readbuf true 10
      [⟨0, .done 3⟩, ⟨-ETIMEDOUT, .done 0⟩] = some (-ETIMEDOUT) ∧
    local_writebuf true 10
      [⟨0, .done 3⟩, ⟨-ETIMEDOUT, .done 0⟩] = some (-ETIMEDOUT) ∧
    ¬ ((-ETIMEDOUT : Int) = 3) := by decide

/-- Claim C3 (amended): the byte-stream fallback returns the positive
partial count instead of the trailing error only when that trailing error
is `EAGAIN` (a readiness wait that would have blocked); any other failure
of the final wait or transfer call is returned as the error even though
bytes were transferred; and a 0-byte transfer on a descriptor that reported
ready stops the loop with `-EIO`, not end-of-file. -/
theorem c3_partial_transfer_amended (len k : Nat) (e : Int) (x : RWResult)
    (rest : List RWStep) (hk : 0 < k) (hkl : k < len) (he : e < 0) :
    (e = -EAGAIN →
      local_readbuf true len (⟨0, .done k⟩ :: ⟨e, x⟩ :: rest) = some (k : Int) ∧
      local_writebuf true len (⟨0, .done k⟩ :: ⟨e, x⟩ :: rest) = some (k : Int)) ∧
    (e ≠ -EAGAIN →
      local_readbuf true len (⟨0, .done k⟩ :: ⟨e, x⟩ :: rest) = some e ∧
      local_writebuf true len (⟨0, .done k⟩ :: ⟨e, x⟩ :: rest) = some e) ∧
    (local_readbuf true len (⟨0, .done k⟩ :: ⟨0, .done 0⟩ :: rest) =
      some (-EIO_) ∧
     local_writebuf true len (⟨0, .done k⟩ :: ⟨0, .done 0⟩ :: rest) =
      some (-EIO_)) := by
  obtain ⟨k, rfl⟩ : ∃ k', k = k' + 1 := ⟨k - 1, by omega⟩
  obtain ⟨m, hm⟩ : ∃ m, len = (k + 1) + (m + 1) := ⟨len - k - 2, by omega⟩
  subst hm
  unfold local_readbuf local_writebuf
  have hstep : ∀ z : RWResult, ∀ r : List RWStep,
      rw_loop (⟨0, .done (k + 1)⟩ :: r) 0 ((k + 1) + (m + 1)) 0 =
      rw_loop r (k + 1) (m + 1) ((k : Int) + 1) := by
    intro z r
    show (if (0 : Int) < 0 then _ else _) = _
    rw [if_neg (by omega)]
    show rw_loop r (0 + (k + 1)) ((k + 1) + (m + 1) - (k + 1)) _ = _
    rw [Nat.zero_add, Nat.add_sub_cancel_left]
  refine ⟨fun heq => ?_, fun hne => ?_, ?_⟩
  · subst heq
    rw [if_neg (by simp), if_neg (by omega), hstep x]
    have h3 : rw_loop (⟨-EAGAIN, x⟩ :: rest) (k + 1) (m + 1) ((k : Int) + 1)
        = some (k + 1, -EAGAIN) := by
      show (if (-EAGAIN : Int) < 0 then _ else _) = _
      rw [if_pos (by unfold EAGAIN; omega)]
    rw [h3, Option.map_some']
    rw [if_pos (show ((-EAGAIN : Int) > 0 ∨ (-EAGAIN : Int) = -EAGAIN) ∧
          0 < k + 1 from ⟨Or.inr rfl, Nat.succ_pos k⟩)]
    exact ⟨rfl, rfl⟩
  · rw [if_neg (by simp), if_neg (by omega), hstep x]
    have h3 : rw_loop (⟨e, x⟩ :: rest) (k + 1) (m + 1) ((k : Int) + 1)
        = some (k + 1, e) := by
      show (if e < 0 then _ else _) = _
      rw [if_pos he]
    rw [h3, Option.map_some']
    rw [if_neg (by
      rintro ⟨h1 | h1, -⟩
      · omega
      · exact hne h1)]
    exact ⟨rfl, rfl⟩
  · rw [if_neg (by simp), if_neg (by omega), hstep (.done 0)]
    have h3 : rw_loop (⟨0, .done 0⟩ :: rest) (k + 1) (m + 1) ((k : Int) + 1)
        = some (k + 1, -EIO_) := by
      show (if (0 : Int) < 0 then _ else _) = _
      rw [if_neg (by omega)]
    rw [h3, Option.map_some']
    rw [if_neg (by
      rintro ⟨h1 | h1, -⟩ <;> simp only [EIO_, EAGAIN] at h1 <;> omega)]
    exact ⟨rfl, rfl⟩

/-- Witness for C3 (amended), at `len = 10`, `k = 3`, trailing error
`-ETIMEDOUT` and trailing `-EAGAIN`. -/
theorem c3_partial_transfer_witness :
    local_readbuf true 10 [⟨0, .done 3⟩, ⟨-EAGAIN, .done 0⟩] = some 3 ∧
    local_readbuf true 10 [⟨0, .done 3⟩, ⟨-ETIMEDOUT, .done 0⟩] =
      some (-ETIMEDOUT) :=
  ⟨((c3_partial_transfer_amended 10 3 (-EAGAIN) (.done 0) []
      (by decide) (by decide) (by decide)).1 rfl).1,
   ((c3_partial_transfer_amended 10 3 (-ETIMEDOUT) (.done 0) []
      (by decide) (by decide) (by decide)).2.1 (by decide)).1⟩

/-! ## Buffer teardown (`local_free_buffer`, local.c lines 1526-1534)

`local_free_buffer` is a straight-line `void` function; it is embedded as
the sequence of externally visible effects it performs, in program order. -/

inductive TeardownStep where
  | free_inner_pdata
  | close_fd
  | close_cancel_fd
  | write_enable_zero
  | free_pdata
  deriving DecidableEq

/-- Embedding of `local_free_buffer`:
`free(pdata->pdata); close(pdata->fd); close(pdata->cancel_fd);
local_do_enable_buffer(pdata, false); free(pdata);`.  The disable step
writes `enable = 0` through the sysfs attribute path and its return value
is discarded. -/
def local_free_buffer_trace : List TeardownStep :=
  [.free_inner_pdata, .close_fd, .close_cancel_fd, .write_enable_zero,
   .free_pdata]

/-- Claim C4 (counterexample to the claim as stated): in `local_free_buffer`
the disable write does NOT precede the close of the data-path descriptor
(nor of the cancellation descriptor); both descriptors are closed first. -/
theorem c4_teardown_order_counterexample :
    ¬ (local_free_buffer_trace.findIdx (· == .write_enable_zero) <
       local_free_buffer_trace.findIdx (· == .close_fd)) := by decide

/-- Claim C4 (amended): teardown always performs the disable write
(`enable = 0`), unconditionally and with its error ignored, but only AFTER
closing the data-path descriptor and the cancellation descriptor; the
attribute write goes through the sysfs path and does not need the
descriptors. -/
theorem c4_teardown_order_amended :
    local_free_buffer_trace.contains .write_enable_zero = true ∧
    local_free_buffer_trace.findIdx (· == .close_fd) <
      local_free_buffer_trace.findIdx (· == .write_enable_zero) ∧
    local_free_buffer_trace.findIdx (· == .close_cancel_fd) <
      local_free_buffer_trace.findIdx (· == .write_enable_zero) := by decide

/-! ## Device attribute read/write (`local_read_dev_attr` /
`local_write_dev_attr`, local.c lines 422-536) and the buffer enable path

The filesystem is an oracle `IOEnv`: whether `fopen` succeeds on a path,
the `errno` it sets on failure, what `fwrite`/`fread` return, and the
`ferror`/`feof` states.  The destination buffer contents of a read are not
modelled (no claim depends on them). -/

structure IOEnv where
  fopenOk : String → Bool
  fopenErrno : String → Int
  fwriteRet : String → String → Nat → Nat
  wferror : String → Bool
  wferrErrno : String → Int
  freadRet : String → Nat → Nat
  feofAfter : String → Bool
  rferror : String → Bool
  rferrErrno : String → Int

/-- The `enum iio_attr_type` values used by the source; `other` stands for
any further enumerator (handled by the `default:` case). -/
inductive AttrType where
  | device
  | debug
  | buffer
  | other
  deriving DecidableEq

/-- Device identity, as used for building sysfs paths.  `hwmon` models
`WITH_HWMON && iio_device_is_hwmon(dev)`. -/
structure DevInfo where
  id : String
  hwmon : Bool
  deriving DecidableEq

/-- Path construction of the `switch (type)` statements in
`local_read_dev_attr`/`local_write_dev_attr` (identical in both);
`none` corresponds to the `default: return -EINVAL` case. -/
def dev_attr_path (dev : DevInfo) (buf_id : Nat) (attr : String)
    (ty : AttrType) : Option String :=
  match ty with
  | .device =>
    if dev.hwmon then some ("/sys/class/hwmon/" ++ dev.id ++ "/" ++ attr)
    else some ("/sys/bus/iio/devices/" ++ dev.id ++ "/" ++ attr)
  | .debug => some ("/sys/kernel/debug/iio/" ++ dev.id ++ "/" ++ attr)
  | .buffer =>
    if buf_id > 0 then
      some ("/sys/bus/iio/devices/" ++ dev.id ++ "/buffer" ++
        toString buf_id ++ "/" ++ attr)
    else some ("/sys/bus/iio/devices/" ++ dev.id ++ "/buffer/" ++ attr)
  | .other => none

/-- Embedding of `local_write_dev_attr`. -/
def local_write_dev_attr (env : IOEnv) (dev : DevInfo) (buf_id : Nat)
    (attr src : String) (len : Nat) (ty : AttrType) : Int :=
  if buf_id > 0 then -ENOSYS
  else match dev_attr_path dev buf_id attr ty with
    | none => -EINVAL
    | some path =>
      if ¬ env.fopenOk path then -(env.fopenErrno path)
      else
        let ret : Int := env.fwriteRet path src len
        let ret := if env.wferror path then -(env.wferrErrno path) else ret
        if ret ≠ 0 then ret else -EIO_

/-- Embedding of `local_read_dev_attr` (destination buffer contents not
modelled). -/
def local_read_dev_attr (env : IOEnv) (dev : DevInfo) (buf_id : Nat)
    (attr : String) (len : Nat) (ty : AttrType) : Int :=
  if buf_id > 0 then -ENOSYS
  else match dev_attr_path dev buf_id attr ty with
    | none => -EINVAL
    | some path =>
      if ¬ env.fopenOk path then -(env.fopenErrno path)
      else
        let ret : Int := env.freadRet path len
        let ret := if ¬ env.feofAfter path then -EFBIG else ret
        let ret := if env.rferror path then -(env.rferrErrno path) else ret
        if ret ≠ 0 then ret else -EIO_

/-- Embedding of `channel_write_state` (local.c lines 564-581).
`enable_fn` is `chn->pdata->enable_fn` (`none` models a NULL pointer). -/
def channel_write_state (env : IOEnv) (dev : DevInfo)
    (enable_fn : Option String) (idx : Nat) (en : Bool) : Int :=
  match enable_fn with
  | none => -EINVAL
  | some fn =>
    let ty := if idx ≠ 0 then AttrType.buffer else AttrType.device
    let ret := local_write_dev_attr env dev idx fn (if en then "1" else "0")
      2 ty
    if ret < 0 then ret else 0

/-- Embedding of `local_set_buffer_size` (local.c lines 261-275). -/
def local_set_buffer_size (env : IOEnv) (p_dev : DevInfo) (p_idx : Nat)
    (nb_samples : Nat) : Int :=
  let s := toString nb_samples
  let ret := local_write_dev_attr env p_dev p_idx "length" s (s.length + 1)
    .buffer
  if ret < 0 then ret else 0

/-- Embedding of `local_set_watermark` (local.c lines 277-291): an `ENOENT`
or `EACCES` failure is tolerated. -/
def local_set_watermark (env : IOEnv) (p_dev : DevInfo) (p_idx : Nat)
    (nb_samples : Nat) : Int :=
  let s := toString nb_samples
  let ret := local_write_dev_attr env p_dev p_idx "watermark" s (s.length + 1)
    .buffer
  if ret < 0 ∧ ret ≠ -ENOENT ∧ ret ≠ -EACCES then ret else 0

/-- Embedding of `local_do_enable_buffer` (local.c lines 293-304). -/
def local_do_enable_buffer (env : IOEnv) (p_dev : DevInfo) (p_idx : Nat)
    (enable : Bool) : Int :=
  let ret := local_write_dev_attr env p_dev p_idx "enable"
    (if enable then "1" else "0") 2 .buffer
  if ret < 0 then ret else 0

/-- The buffer state used by `local_enable_buffer`. -/
structure BufPdata where
  dev : DevInfo
  idx : Nat
  dmabuf_supported : Bool
  mmap_supported : Bool

/-- Embedding of `local_enable_buffer` (local.c lines 306-325).  The C
guard is `(pdata->dmabuf_supported | pdata->mmap_supported) != !nb_samples`;
`!nb_samples` is true exactly when `nb_samples == 0`.  The `enable`
parameter is ignored by the source, which always enables. -/
def local_enable_buffer (env : IOEnv) (p : BufPdata) (nb_samples : Nat)
    (_enable : Bool) : Int :=
  if (p.dmabuf_supported || p.mmap_supported) ≠ (nb_samples == 0) then -EINVAL
  else if nb_samples ≠ 0 then
    let r1 := local_set_buffer_size env p.dev p.idx nb_samples
    if r1 ≠ 0 then r1
    else
      let r2 := local_set_watermark env p.dev p.idx nb_samples
      if r2 ≠ 0 then r2
      else local_do_enable_buffer env p.dev p.idx true
  else local_do_enable_buffer env p.dev p.idx true

/-- A concrete oracle on which every `fopen` succeeds and every
`fread`/`fwrite` returns 1 with no stream error. -/
def envOne : IOEnv :=
  ⟨fun _ => true, fun _ => 0, fun _ _ _ => 1, fun _ => false, fun _ => 0,
   fun _ _ => 1, fun _ => true, fun _ => false, fun _ => 0⟩

/-- Claim C10: with a buffer index strictly greater than 0, both
`local_read_dev_attr` and `local_write_dev_attr` return `-ENOSYS` for every
oracle (hence before touching any file), every attribute name, and every
attribute type; consequently a channel enable write with a non-zero index
(`channel_write_state` with a parsed `en` attribute) also fails with
`-ENOSYS`. -/
theorem c10_nonzero_buffer_index_enosys (env : IOEnv) (dev : DevInfo)
    (buf_id : Nat) (attr src : String) (len : Nat) (ty : AttrType)
    (fn : String) (en : Bool) (h : 0 < buf_id) :
    local_read_dev_attr env dev buf_id attr len ty = -ENOSYS ∧
    local_write_dev_attr env dev buf_id attr src len ty = -ENOSYS ∧
    channel_write_state env dev (some fn) buf_id en = -ENOSYS := by
  have hw : ∀ a s l t, local_write_dev_attr env dev buf_id a s l t = -ENOSYS := by
    intro a s l t
    unfold local_write_dev_attr
    rw [if_pos (by omega)]
  refine ⟨?_, hw attr src len ty, ?_⟩
  · unfold local_read_dev_attr
    rw [if_pos (by omega)]
  · simp only [channel_write_state]
    rw [hw]
    rw [if_pos (by unfold ENOSYS; omega)]

/-- Witness for C10 at buffer index 1. -/
theorem c10_nonzero_buffer_index_witness :
    local_read_dev_attr envOne ⟨"iio:device0", false⟩ 1 "length" 1024
      .buffer = -ENOSYS ∧
    local_write_dev_attr envOne ⟨"iio:device0", false⟩ 1 "length" "64" 3
      .buffer = -ENOSYS ∧
    channel_write_state envOne ⟨"iio:device0", false⟩ (some "in_voltage0_en")
      1 true = -ENOSYS :=
  c10_nonzero_buffer_index_enosys envOne ⟨"iio:device0", false⟩ 1 "length"
    "64" 1024 .buffer "in_voltage0_en" true Nat.one_pos

/-- Claim C1 (counterexample to the claim as stated): requesting a non-zero
sample count on a buffer with neither mmap nor dma-buf capability does NOT
fail: with every attribute write succeeding, the call returns 0.  Likewise
a zero sample count on a buffer with a capability succeeds.  The claimed
equation `(dmabuf_supported | mmap_supported) == (nb_samples != 0)` is the
code's FAILURE condition, not its success condition. -/
theorem c1_enable_buffer_guard_counterexample :
    local_enable_buffer envOne ⟨⟨"iio:device0", false⟩, 0, false, false⟩
      1 true = 0 ∧
    local_enable_buffer envOne ⟨⟨"iio:device0", false⟩, 0, true, false⟩
      0 true = 0 ∧
    ¬ ((0 : Int) = -EINVAL) := by decide

/-- Claim C1 (amended): `local_enable_buffer` fails with `-EINVAL` exactly
when `(dmabuf_supported | mmap_supported) == (nb_samples != 0)` HOLDS,
i.e. the contract that must hold is
`(dmabuf_supported | mmap_supported) == (nb_samples == 0)`: a non-zero
sample count requires a backend with neither mmap nor dma-buf support, and
a zero sample count requires one of them.  (The environment hypothesis
rules out `-EINVAL` being produced by the underlying attribute writes
themselves.) -/
theorem c1_enable_buffer_guard_amended (env : IOEnv) (p : BufPdata)
    (nb_samples : Nat) (en : Bool)
    (henv : ∀ a s l, local_write_dev_attr env p.dev p.idx a s l .buffer ≠
      -EINVAL) :
    local_enable_buffer env p nb_samples en = -EINVAL ↔
      (p.dmabuf_supported || p.mmap_supported) ≠ (nb_samples == 0) := by
  unfold local_enable_buffer
  by_cases hg : (p.dmabuf_supported || p.mmap_supported) ≠ (nb_samples == 0)
  · rw [if_pos hg]
    simp [hg]
  · rw [if_neg hg]
    constructor
    · intro hres
      exfalso
      have h1 := henv "length" (toString nb_samples)
        ((toString nb_samples).length + 1)
      have h2 := henv "watermark" (toString nb_samples)
        ((toString nb_samples).length + 1)
      have h3 := henv "enable" "1" 2
      unfold local_set_buffer_size local_set_watermark local_do_enable_buffer
        at hres
      simp only [eq_self_iff_true, if_true] at hres
      simp only [EINVAL, ENOENT, EACCES] at hres h1 h2 h3
      split_ifs at hres <;> omega
    · intro hc
      exact absurd hc hg

/-- Witness for C1 (amended) at a concrete streaming-capability buffer and
non-zero sample count: the call does not produce `-EINVAL`. -/
theorem c1_enable_buffer_guard_witness :
    ¬ (local_enable_buffer envOne ⟨⟨"iio:device0", false⟩, 0, false, false⟩
      4 true = -EINVAL) := by
  intro h
  have hiff := c1_enable_buffer_guard_amended envOne
    ⟨⟨"iio:device0", false⟩, 0, false, false⟩ 4 true
    (by
      intro a s l
      unfold local_write_dev_attr dev_attr_path envOne EINVAL
      norm_num)
  exact absurd (hiff.mp h) (by decide)

/-! ## Scan-element format parser (`handle_protected_scan_element_attr`,
`"type"` branch, local.c lines 794-827)

The attribute value is a character list.  `iio_sscanf` with the fixed
formats `"%ce:%c%u/%uX%u>>%u"` and `"%ce:%c%u/%u>>%u"` is embedded as a
cascade of scanners; conversions are applied left to right, and assignment
stops at the first match failure, leaving the remaining fields
unassigned (`none`). -/

/-- The relevant fields of `struct iio_data_format`. -/
structure Format where
  bits : Nat
  length : Nat
  shift : Nat
  repeat_ : Nat
  is_signed : Bool
  is_fully_defined : Bool
  is_be : Bool
  deriving DecidableEq

def fmt0 : Format := ⟨0, 0, 0, 0, false, false, false⟩

/-- A `%c` conversion: consumes exactly one character. -/
def scanChar : List Char → Option (Char × List Char)
  | [] => none
  | c :: r => some (c, r)

/-- A literal character in the scanf format string. -/
def scanLit (c : Char) : List Char → Option (List Char)
  | [] => none
  | x :: r => if x = c then some r else none

def digitsVal (ds : List Char) : Nat :=
  ds.foldl (fun a c => a * 10 + (c.toNat - 48)) 0

/-- A `%u` conversion of `iio_sscanf`: skips leading whitespace, then
consumes at least one decimal digit.  (An explicit sign, which `%u` would
also accept, never occurs in scan-element type strings and is not
modelled.) -/
def scanU (l : List Char) : Option (Nat × List Char) :=
  let l := l.dropWhile Char.isWhitespace
  let ds := l.takeWhile Char.isDigit
  if ds.isEmpty then none
  else some (digitsVal ds, l.drop ds.length)

/-- Values assigned by one `iio_sscanf` call; `none` = conversion never
matched, so the destination keeps whatever it held before the call. -/
structure ScanType where
  endian : Option Char
  sign : Option Char
  bits : Option Nat
  len : Option Nat
  rep : Option Nat
  shift : Option Nat
  deriving DecidableEq

def noScan : ScanType := ⟨none, none, none, none, none, none⟩

/-- `iio_sscanf(buf, "%ce:%c%u/%u>>%u", &endian, &sign, &bits, &length,
&shift)`. -/
def scanTypeNoX (l : List Char) : ScanType :=
  match scanChar l with
  | none => noScan
  | some (e, l) =>
    let r1 : ScanType := { noScan with endian := some e }
    match scanLit 'e' l >>= scanLit ':' with
    | none => r1
    | some l =>
      match scanChar l with
      | none => r1
      | some (sg, l) =>
        let r2 := { r1 with sign := some sg }
        match scanU l with
        | none => r2
        | some (b, l) =>
          let r3 := { r2 with bits := some b }
          match scanLit '/' l with
          | none => r3
          | some l =>
            match scanU l with
            | none => r3
            | some (ln, l) =>
              let r4 := { r3 with len := some ln }
              match scanLit '>' l >>= scanLit '>' with
              | none => r4
              | some l =>
                match scanU l with
                | none => r4
                | some (sh, _) => { r4 with shift := some sh }

/-- `iio_sscanf(buf, "%ce:%c%u/%uX%u>>%u", &endian, &sign, &bits, &length,
&repeat, &shift)`. -/
def scanTypeX (l : List Char) : ScanType :=
  match scanChar l with
  | none => noScan
  | some (e, l) =>
    let r1 : ScanType := { noScan with endian := some e }
    match scanLit 'e' l >>= scanLit ':' with
    | none => r1
    | some l =>
      match scanChar l with
      | none => r1
      | some (sg, l) =>
        let r2 := { r1 with sign := some sg }
        match scanU l with
        | none => r2
        | some (b, l) =>
          let r3 := { r2 with bits := some b }
          match scanLit '/' l with
          | none => r3
          | some l =>
            match scanU l with
            | none => r3
            | some (ln, l) =>
              let r4 := { r3 with len := some ln }
              match scanLit 'X' l with
              | none => r4
              | some l =>
                match scanU l with
                | none => r4
                | some (rp, l) =>
                  let r5 := { r4 with rep := some rp }
                  match scanLit '>' l >>= scanLit '>' with
                  | none => r5
                  | some l =>
                    match scanU l with
                    | none => r5
                    | some (sh, _) => { r5 with shift := some sh }

/-- The branch on `strchr(buf, 'X')` selecting which format string is
used. -/
def scan_type_fields (buf : List Char) : ScanType :=
  if buf.contains 'X' then scanTypeX buf else scanTypeNoX buf

/-- Embedding of the `"type"` branch of
`handle_protected_scan_element_attr`: the sscanf assignments overwrite the
corresponding `chn->format` fields (unassigned fields keep their prior
values); in the no-`X` branch `chn->format.repeat` is set to 1 before
parsing.  `uninitEndian`/`uninitSign` model the indeterminate stack values
of the local `endian`/`sign` variables that the C code reads when the
corresponding conversion never matched. -/
def parse_scan_type (prior : Format) (uninitEndian uninitSign : Char)
    (buf : List Char) : Format :=
  let hasX := buf.contains 'X'
  let f0 := if hasX then prior else { prior with repeat_ := 1 }
  let r := scan_type_fields buf
  let bits := r.bits.getD f0.bits
  let length := r.len.getD f0.length
  let shift := r.shift.getD f0.shift
  let rep := r.rep.getD f0.repeat_
  let sg := r.sign.getD uninitSign
  let en := r.endian.getD uninitEndian
  { bits := bits, length := length, shift := shift, repeat_ := rep,
    is_signed := sg == 's' || sg == 'S',
    is_fully_defined := sg == 'S' || sg == 'U' || bits == length,
    is_be := en == 'b' }

theorem scanTypeNoX_rep (l : List Char) : (scanTypeNoX l).rep = none := by
  unfold scanTypeNoX noScan
  repeat' split
  all_goals rfl

/-- Claim C6: the scan-element type parser maps `"le:s12/16>>4"` to
little-endian, signed, bits 12, length 16, shift 4, repeat 1, not fully
defined, and `"be:U16/16X4>>0"` to big-endian, unsigned, bits 16, length
16, shift 0, repeat 4, fully defined; in general repeat defaults to 1 when
the `X<repeat>` group is absent, and `is_fully_defined` is true exactly
when the sign letter (one of `s`, `S`, `u`, `U`) is upper-case or bits
equals length. -/
theorem c6_scan_element_type_claim (prior : Format) (e0 s0 : Char) :
    parse_scan_type prior e0 s0 "le:s12/16>>4".data =
      ⟨12, 16, 4, 1, true, false, false⟩ ∧
    parse_scan_type prior e0 s0 "be:U16/16X4>>0".data =
      ⟨16, 16, 0, 4, false, true, true⟩ ∧
    (∀ buf : List Char, buf.contains 'X' = false →
      (parse_scan_type prior e0 s0 buf).repeat_ = 1) ∧
    (∀ (buf : List Char) (c : Char) (b l : Nat),
      (scan_type_fields buf).sign = some c →
      (scan_type_fields buf).bits = some b →
      (scan_type_fields buf).len = some l →
      (c = 's' ∨ c = 'S' ∨ c = 'u' ∨ c = 'U') →
      (parse_scan_type prior e0 s0 buf).is_fully_defined =
        (c.isUpper || b == l)) := by
  refine ⟨rfl, rfl, ?_, ?_⟩
  · intro buf hX
    have hX' : ¬ ('X' ∈ buf) := by simpa using hX
    simp [parse_scan_type, scan_type_fields, hX', scanTypeNoX_rep]
  · intro buf c b l hs hb hl hc
    simp only [parse_scan_type]
    simp only [hs, hb, hl, Option.getD_some]
    rcases hc with rfl | rfl | rfl | rfl <;>
      cases hbe : (b == l) <;> decide

/-- Witness for C6 at the two concrete grammar strings. -/
theorem c6_scan_element_type_witness :
    (parse_scan_type fmt0 'x' 'x' "le:s12/16>>4".data).repeat_ = 1 ∧
    (parse_scan_type fmt0 'x' 'x' "be:U16/16X4>>0".data).is_fully_defined =
      true := by
  constructor
  · exact (c6_scan_element_type_claim fmt0 'x' 'x').2.2.1
      "le:s12/16>>4".data (by decide)
  · rw [(c6_scan_element_type_claim fmt0 'x' 'x').2.2.2
      "be:U16/16X4>>0".data 'U' 16 16 (by decide) (by decide) (by decide)
      (Or.inr (Or.inr (Or.inr rfl)))]
    decide

/-! ## Common-prefix name folding (`set_channel_name`, local.c lines
123-182)

Attribute names are character lists (C strings without their NUL
terminator). -/

/-- C `strncmp(a, b, n) == 0`: the end of a list plays the role of the NUL
terminator, which compares unequal to every real character and stops the
comparison when reached on both sides. -/
def strncmpEq : List Char → List Char → Nat → Bool
  | _, _, 0 => true
  | [], [], _ + 1 => true
  | [], _ :: _, _ + 1 => false
  | _ :: _, [], _ + 1 => false
  | a :: as, b :: bs, n + 1 => a == b && strncmpEq as bs n

/-- Character at index `i` of a NUL-terminated C string (the NUL
terminator for out-of-range access). -/
def cAt (l : List Char) (i : Nat) : Char := l.getD i (Char.ofNat 0)

/-- The indices of the underscores of `l`, in increasing order: the
successive positions visited by the `ptr = strchr(ptr, '_')` calls of the
`set_channel_name` loop. -/
def underscorePos (l : List Char) : List Nat :=
  (List.range l.length).filter (fun i => cAt l i == '_')

/-- The scanning loop of `set_channel_name`: `acc` is `prefix_len`; at each
underscore position `p` of the first attribute name the candidate length
`len = p + 1` is tested against all the other names (`ok`), and the loop
breaks at the first failure. -/
def prefixLoop (ok : Nat → Bool) : List Nat → Nat → Nat
  | [], acc => acc
  | p :: rest, acc => if ok (p + 1) then prefixLoop ok rest (p + 1) else acc

/-- The channel data used by `set_channel_name`: display name, attribute
file names, protected (scan-element) attribute file names. -/
structure ChanN where
  name : Option (List Char)
  attrs : List (List Char)
  protected_attrs : List (List Char)
  deriving DecidableEq

/-- Embedding of `set_channel_name`.  Nothing happens with fewer than two
attributes.  `attr0` is `chn->attrs[0].name`, or `protected_attrs[0].name`
when there are no plain attributes; the candidate prefix is checked against
`attrs[1..]` and against the protected names starting at index
`!chn->nb_attrs`; a non-zero `prefix_len` makes `attr0`'s first
`prefix_len - 1` characters the channel name (`iio_strlcpy` drops the
trailing underscore) and `strcut` removes `prefix_len` characters from
every stored name. -/
def set_channel_name (c : ChanN) : ChanN :=
  if c.attrs.length + c.protected_attrs.length < 2 then c
  else
    let attr0 := if c.attrs.isEmpty then c.protected_attrs.headD []
      else c.attrs.headD []
    let others := c.attrs.drop 1 ++
      c.protected_attrs.drop (if c.attrs.isEmpty then 1 else 0)
    let plen := prefixLoop
      (fun len => others.all (fun a => strncmpEq attr0 a len))
      (underscorePos attr0) 0
    if plen ≠ 0 then
      { name := some (attr0.take (plen - 1)),
        attrs := c.attrs.map (·.drop plen),
        protected_attrs := c.protected_attrs.map (·.drop plen) }
    else c

/-- Follows the spec's words: the length of the longest prefix of the
first name that ends in an underscore and is common to all of the
channel's attribute names; `0` if there is none. -/
def spec_common_prefix_len (attr0 : List Char) (others : List (List Char)) :
    Nat :=
  Nat.findGreatest
    (fun len => len ≠ 0 ∧ cAt attr0 (len - 1) = '_' ∧
      ∀ a ∈ others, a.take len = attr0.take len)
    attr0.length

theorem strncmpEq_iff (a b : List Char) (n : Nat) :
    strncmpEq a b n = true ↔ a.take n = b.take n := by
  induction n generalizing a b with
  | zero => simp [strncmpEq]
  | succ n ih =>
    cases a with
    | nil =>
      cases b with
      | nil => simp [strncmpEq]
      | cons b bs => simp [strncmpEq]
    | cons a as =>
      cases b with
      | nil => simp [strncmpEq]
      | cons b bs => simp [strncmpEq, ih]

theorem strncmpEq_mono (a b : List Char) {m n : Nat} (h : m ≤ n)
    (hn : strncmpEq a b n = true) : strncmpEq a b m = true := by
  rw [strncmpEq_iff] at hn ⊢
  have := congrArg (List.take m) hn
  simpa [List.take_take, Nat.min_eq_left h] using this

theorem underscorePos_mem {l : List Char} {p : Nat}
    (h : p ∈ underscorePos l) : p < l.length ∧ cAt l p = '_' := by
  rw [underscorePos, List.mem_filter, List.mem_range] at h
  exact ⟨h.1, by simpa using h.2⟩

theorem underscorePos_mem_of {l : List Char} {p : Nat}
    (h1 : p < l.length) (h2 : cAt l p = '_') : p ∈ underscorePos l := by
  rw [underscorePos, List.mem_filter, List.mem_range]
  exact ⟨h1, by simpa using h2⟩

/-- Behaviour of the break-at-first-failure loop over a strictly
increasing position list, for a predicate that is downward closed: the
result is the initial value or a successful position, it never decreases,
and it dominates every successful position. -/
theorem prefixLoop_spec (ok : Nat → Bool)
    (mono : ∀ m n, m ≤ n → ok n = true → ok m = true) :
    ∀ (l : List Nat) (acc : Nat), l.Pairwise (· < ·) →
      (∀ q ∈ l, acc ≤ q + 1) →
      (prefixLoop ok l acc = acc ∨
        ∃ p ∈ l, prefixLoop ok l acc = p + 1 ∧ ok (p + 1) = true) ∧
      acc ≤ prefixLoop ok l acc ∧
      (∀ p ∈ l, ok (p + 1) = true → p + 1 ≤ prefixLoop ok l acc) := by
  intro l
  induction l with
  | nil => intro acc _ _; exact ⟨Or.inl rfl, le_refl _, by simp⟩
  | cons p rest ih =>
    intro acc hpw hacc
    obtain ⟨hplt, hpw'⟩ := List.pairwise_cons.mp hpw
    unfold prefixLoop
    by_cases hok : ok (p + 1) = true
    · rw [if_pos hok]
      obtain ⟨hshape, hge, hmax⟩ := ih (p + 1) hpw'
        (fun q hq => by have := hplt q hq; omega)
      refine ⟨?_, ?_, ?_⟩
      · rcases hshape with h | ⟨q, hq, hh⟩
        · exact Or.inr ⟨p, List.mem_cons_self p rest, h, hok⟩
        · exact Or.inr ⟨q, List.mem_cons_of_mem p hq, hh⟩
      · exact le_trans (hacc p (List.mem_cons_self p rest)) hge
      · intro q hq hokq
        rcases List.mem_cons.mp hq with rfl | hq'
        · exact hge
        · exact hmax q hq' hokq
    · rw [if_neg hok]
      refine ⟨Or.inl rfl, le_refl _, ?_⟩
      intro q hq hokq
      rcases List.mem_cons.mp hq with rfl | hq'
      · exact absurd hokq hok
      · exact absurd (mono (p + 1) (q + 1) (by have := hplt q hq'; omega) hokq)
          hok

/-- The greedy loop of `set_channel_name` computes exactly the longest
common underscore-terminated prefix of the spec. -/
theorem prefixLen_eq_spec (attr0 : List Char) (others : List (List Char)) :
    prefixLoop (fun len => others.all (fun a => strncmpEq attr0 a len))
      (underscorePos attr0) 0 = spec_common_prefix_len attr0 others := by
  have mono : ∀ m n, m ≤ n →
      (fun len => others.all (fun a => strncmpEq attr0 a len)) n = true →
      (fun len => others.all (fun a => strncmpEq attr0 a len)) m = true := by
    intro m n hmn hn
    simp only [List.all_eq_true] at hn ⊢
    intro a ha
    exact strncmpEq_mono attr0 a hmn (hn a ha)
  have hpw : (underscorePos attr0).Pairwise (· < ·) :=
    (List.pairwise_lt_range _).filter _
  obtain ⟨hshape, -, hmax⟩ := prefixLoop_spec _ mono (underscorePos attr0) 0
    hpw (by simp)
  rw [spec_common_prefix_len]
  symm
  rw [Nat.findGreatest_eq_iff]
  refine ⟨?_, ?_, ?_⟩
  · rcases hshape with h | ⟨p, hp, hres, -⟩
    · rw [h]; exact Nat.zero_le _
    · rw [hres]; exact (underscorePos_mem hp).1
  · intro h0
    rcases hshape with h | ⟨p, hp, hres, hokp⟩
    · exact absurd h (by intro hh; exact h0 hh)
    · obtain ⟨hplen, hpund⟩ := underscorePos_mem hp
      refine ⟨h0, ?_, ?_⟩
      · rw [hres]; simpa using hpund
      · intro a ha
        rw [hres]
        simp only [List.all_eq_true] at hokp
        exact ((strncmpEq_iff attr0 a (p + 1)).mp (hokp a ha)).symm
  · intro n hlt hle hP
    obtain ⟨hn0, hund, hcomm⟩ := hP
    have hpin : (n - 1) ∈ underscorePos attr0 :=
      underscorePos_mem_of (by omega) (by
        have : n - 1 + 1 = n := by omega
        simpa [this] using hund)
    have hok : (fun len => others.all (fun a => strncmpEq attr0 a len))
        (n - 1 + 1) = true := by
      simp only [List.all_eq_true]
      intro a ha
      rw [strncmpEq_iff]
      have : n - 1 + 1 = n := by omega
      rw [this]
      exact (hcomm a ha).symm
    have := hmax (n - 1) hpin hok
    omega

/-- Claim C8 (counterexample to the claim as stated): a channel with
attribute names `foo_bar_raw` and `foo_bar_scale` ends up with display
name `foo_bar` — the whole common prefix without its trailing underscore —
not `bar`. -/
theorem c8_channel_name_counterexample :
    (set_channel_name ⟨none, ["foo_bar_raw".data, "foo_bar_scale".data],
      []⟩).name = some "foo_bar".data ∧
    ¬ (some "foo_bar".data = some "bar".data) := by decide

/-- Claim C8 (amended): for a channel with at least two attribute names
(plain plus protected scan-element ones), `set_channel_name` computes the
longest prefix ending in `'_'` common to all of the names, makes it
(without the trailing underscore) the display name when it is non-empty,
and strips it from every stored name; a channel with no such common prefix
is unchanged.  In particular `{"foo_bar_raw","foo_bar_scale"}` yields
display name `foo_bar` and attribute names `{"raw","scale"}`, names
`{"raw","scale"}` yield no display name, and protected attributes
participate. -/
theorem c8_channel_name_folding (c : ChanN)
    (h2 : 2 ≤ c.attrs.length + c.protected_attrs.length) :
    (set_channel_name c =
      (let attr0 := if c.attrs.isEmpty then c.protected_attrs.headD []
        else c.attrs.headD [];
      let others := c.attrs.drop 1 ++
        c.protected_attrs.drop (if c.attrs.isEmpty then 1 else 0);
      let L := spec_common_prefix_len attr0 others
      if L ≠ 0 then
        { name := some (attr0.take (L - 1)),
          attrs := c.attrs.map (·.drop L),
          protected_attrs := c.protected_attrs.map (·.drop L) }
      else c)) ∧
    set_channel_name ⟨none, ["foo_bar_raw".data, "foo_bar_scale".data], []⟩ =
      ⟨some "foo_bar".data, ["raw".data, "scale".data], []⟩ ∧
    set_channel_name ⟨none, ["raw".data, "scale".data], []⟩ =
      ⟨none, ["raw".data, "scale".data], []⟩ ∧
    set_channel_name ⟨none, ["bar_raw".data], ["bar_en".data]⟩ =
      ⟨some "bar".data, ["raw".data], ["en".data]⟩ := by
  refine ⟨?_, by decide, by decide, by decide⟩
  rw [set_channel_name, if_neg (by omega)]
  simp only [prefixLen_eq_spec]

/-- Witness for C8 (amended) at the `foo_bar` channel. -/
theorem c8_channel_name_folding_witness :
    set_channel_name ⟨none, ["foo_bar_raw".data, "foo_bar_scale".data], []⟩ =
      ⟨some "foo_bar".data, ["raw".data, "scale".data], []⟩ :=
  (c8_channel_name_folding
    ⟨none, ["foo_bar_raw".data, "foo_bar_scale".data], []⟩ (by decide)).2.1

/-! ## Attribute classification engine (`is_channel`, `get_channel_id`,
`get_short_attr_name`, `is_global_attr`, `detect_and_move_global_attrs`,
local.c lines 641-717 and 1045-1176)

All functions are embedded for non-hwmon devices
(`WITH_HWMON && iio_device_is_hwmon(dev)` is false; no claim involves
hwmon).  `iio_channel_init_finalize` (channel.c, not part of the sources)
only initializes unrelated channel state and is not modelled. -/

/-- Position of the first occurrence of `c` in `l` (C `strchr`). -/
def strchrPos (l : List Char) (c : Char) : Option Nat :=
  l.findIdx? (· == c)

/-- Position of the first occurrence of `c` at or after index `start`
(C `strchr(l + start, c)`, as an absolute index). -/
def strchrFrom (l : List Char) (start : Nat) (c : Char) : Option Nat :=
  ((l.drop start).findIdx? (· == c)).map (· + start)

/-- Modelled from the spec: `find_channel_modifier` lives in channel.c,
which is not among the sources.  Per the spec it recognizes "a recognized
channel-modifier keyword (e.g. axis/orientation suffixes)" at the start of
the string, followed by an underscore or the end of the string, and
reports the keyword's length.  A representative axis/orientation keyword
table is used; no claim depends on the exact table, only on `raw`/`scale`/
voltage ids not being modifiers. -/
def modifier_names : List (List Char) := ["x".data, "y".data, "z".data]

def find_channel_modifier (s : List Char) : Option Nat :=
  (modifier_names.find? (fun m => strncmpEq s m m.length &&
    (s.length == m.length || cAt s m.length == '_'))).map List.length

/-- Embedding of `is_channel` (local.c lines 641-663) for non-hwmon
devices. -/
def is_channel (attr : List Char) (strict : Bool) : Bool :=
  if strncmpEq attr "in_timestamp_".data 13 then true
  else
    let ptr : Option Nat :=
      if strncmpEq attr "in_".data 3 then strchrFrom attr 3 '_'
      else if strncmpEq attr "out_".data 4 then strchrFrom attr 4 '_'
      else none
    match ptr with
    | none => false
    | some p =>
      if ¬ strict then true
      else if '0' ≤ cAt attr (p - 1) ∧ cAt attr (p - 1) ≤ '9' then true
      else (find_channel_modifier (attr.drop (p + 1))).isSome

/-- Embedding of `get_channel_id` (local.c lines 665-690) for non-hwmon
devices.  `none` models the undefined-behaviour paths (attribute without
the expected underscores), which the callers never reach. -/
def get_channel_id (attr : List Char) : Option (List Char) :=
  match strchrPos attr '_' with
  | none => none
  | some p1 =>
    let a := attr.drop (p1 + 1)
    match strchrPos a '_' with
    | none => none
    | some p2 =>
      let p2' := match find_channel_modifier (a.drop (p2 + 1)) with
        | some len => p2 + len + 1
        | none => p2
      some (a.take p2')

/-- Embedding of `get_short_attr_name` (local.c lines 692-717) for
non-hwmon devices; `chn_name` is the channel's folded display name. -/
def get_short_attr_name (chn_name : Option (List Char)) (attr : List Char) :
    Option (List Char) :=
  match strchrPos attr '_' with
  | none => none
  | some p1 =>
    match strchrPos (attr.drop (p1 + 1)) '_' with
    | none => none
    | some p2 =>
      let ptr := attr.drop (p1 + 1 + p2 + 1)
      let ptr := match find_channel_modifier ptr with
        | some len => ptr.drop (len + 1)
        | none => ptr
      match chn_name with
      | some nm =>
        if strncmpEq nm ptr nm.length ∧ cAt ptr nm.length = '_'
        then some (ptr.drop (nm.length + 1)) else some ptr
      | none => some ptr

/-- A channel as used by the classification pass: id, direction, folded
display name, and the list of (short name, backing file name) attribute
pairs. -/
structure ChanC where
  id : List Char
  is_output : Bool
  name : Option (List Char)
  attrs : List (List Char × List Char)
  deriving DecidableEq

/-- Embedding of `is_global_attr` (local.c lines 1045-1098).  Returns 0
(attribute not applicable to this channel), 1 (shared) or 2 (private). -/
def is_global_attr (chn : ChanC) (attr0 : List Char) : Nat :=
  let stripped : Option (List Char) :=
    if ¬ chn.is_output ∧ strncmpEq attr0 "in_".data 3 then
      some (attr0.drop 3)
    else if chn.is_output ∧ strncmpEq attr0 "out_".data 4 then
      some (attr0.drop 4)
    else none
  match stripped with
  | none => 0
  | some attr =>
    match strchrPos attr '_' with
    | none => 0
    | some len =>
      let diff : Bool :=
        match strchrPos attr '-' with
        | none => false
        | some d =>
          if 0 < d ∧ d < len then
            let len1 := d
            let len2 := len - d - 1
            match strchrPos chn.id '-' with
            | none => false
            | some idd =>
              decide (chn.id.length - (idd + 1) > len2 ∧ idd > len1 ∧
                '0' ≤ cAt chn.id len1 ∧ cAt chn.id len1 ≤ '9' ∧
                strncmpEq chn.id attr len1 = true ∧
                '0' ≤ cAt chn.id (idd + len2 + 1) ∧
                cAt chn.id (idd + len2 + 1) ≤ '9' ∧
                strncmpEq (chn.id.drop (idd + 1)) (attr.drop (d + 1)) len2 =
                  true)
          else false
      if diff then 1
      else if ¬ strncmpEq chn.id attr len then 0
      else if '0' ≤ cAt chn.id len ∧ cAt chn.id len ≤ '9' then
        match chn.name with
        | some nm =>
          if strncmpEq nm (attr.drop (len + 1)) nm.length ∧
            cAt attr (len + 1 + nm.length) = '_' then 2
          else 1
        | none => 1
      else if cAt chn.id len ≠ '_' then 0
      else if (find_channel_modifier (chn.id.drop (len + 1))).isSome then 1
      else 0

/-- Embedding of `add_attr_to_channel` (local.c lines 897-936) as used by
the detection pass (`is_scan_element = false`, `path = attr`); allocation
failures are not modelled.  The `none` branch corresponds to an attribute
without the expected shape, unreachable from the callers. -/
def add_attr_to_channel (chn : ChanC) (attr path : List Char) : ChanC :=
  match get_short_attr_name chn.name attr with
  | none => chn
  | some nm => { chn with attrs := chn.attrs ++ [(nm, path)] }

/-- Embedding of `detect_global_attr` (local.c lines 1100-1118): the
attribute joins every channel classified at `level`; the flag reports
whether any channel matched. -/
def detect_global_attr (chans : List ChanC) (attr : List Char)
    (level : Nat) : List ChanC × Bool :=
  chans.foldl (fun (acc : List ChanC × Bool) chn =>
    if is_global_attr chn attr = level
    then (acc.1 ++ [add_attr_to_channel chn attr attr], true)
    else (acc.1 ++ [chn], acc.2)) ([], false)

/-- Embedding of `create_channel` (local.c lines 955-996) as used by the
detection pass (`is_scan_element = false`): direction from the `in_`/`out_`
prefix (anything else is the `-EINVAL` path, `none`), given id, first
attribute attached. -/
def create_channel (id attr path : List Char) : Option ChanC :=
  if strncmpEq attr "out_".data 4 then
    some (add_attr_to_channel ⟨id, true, none, []⟩ attr path)
  else if ¬ strncmpEq attr "in_".data 3 then none
  else some (add_attr_to_channel ⟨id, false, none, []⟩ attr path)

/-- The channel-matching loop of `add_channel`: the attribute joins the
first channel with the same id and matching direction
(`chn->is_output == (name[0] == 'o')`). -/
def add_channel_loop (name path channel_id : List Char) :
    List ChanC → Option (List ChanC)
  | [] => none
  | c :: rest =>
    if c.id == channel_id && (c.is_output == (cAt name 0 == 'o'))
    then some (add_attr_to_channel c name path :: rest)
    else (add_channel_loop name path channel_id rest).map (c :: ·)

/-- Embedding of `add_channel` (local.c lines 998-1037) restricted to
`dir_is_scan_elements = false`; `none` models the error paths. -/
def add_channel (chans : List ChanC) (name path : List Char) :
    Option (List ChanC) :=
  match get_channel_id name with
  | none => none
  | some channel_id =>
    match add_channel_loop name path channel_id chans with
    | some chans' => some chans'
    | none =>
      (create_channel channel_id name path).map (fun chn => chans ++ [chn])

/-- A device as seen by the global-attribute detection pass. -/
structure DevC where
  channels : List ChanC
  attrs : List (List Char)
  deriving DecidableEq

/-- Embedding of `detect_and_move_global_attrs` (local.c lines 1120-1176):
the first pass classifies every device attribute against every channel at
level 2 (private) and, when nothing matched, at level 1 (shared), moving
matches into the channels and dropping them from the device list; the
second pass turns leftover attributes satisfying the non-strict
`is_channel` test into (possibly new) channels; the list is then
compacted.  `none` models the C error paths. -/
def detect_and_move_global_attrs (dev : DevC) : Option DevC :=
  let step1 := dev.attrs.foldl
    (fun (st : List ChanC × List (List Char)) attr =>
      let (chans2, match2) := detect_global_attr st.1 attr 2
      let (chans3, match3) :=
        if ¬ match2 then detect_global_attr chans2 attr 1
        else (chans2, false)
      if match2 || match3 then (chans3, st.2)
      else (chans3, st.2 ++ [attr]))
    (dev.channels, [])
  let step2 := step1.2.foldl
    (fun (acc : Option (List ChanC × List (List Char))) attr =>
      match acc with
      | none => none
      | some (chans, kept) =>
        if is_channel attr false then
          match add_channel chans attr attr with
          | none => none
          | some chans' => some (chans', kept)
        else some (chans, kept ++ [attr]))
    (some (step1.1, []))
  step2.map (fun st => ⟨st.1, st.2⟩)

/-- Claim C7 (counterexample to the claim as stated): with channels
`voltage0` and `voltage1` known, a device-level attribute named
`voltage0-voltage1_raw` is NOT classified as shared by either channel
(`is_global_attr` returns 0 — the name has no `in_`/`out_` direction
prefix), is not added to any channel, and is not removed from the
device-level attribute list. -/
theorem c7_differential_attr_counterexample :
    is_global_attr ⟨"voltage0".data, false, none, []⟩
      "voltage0-voltage1_raw".data = 0 ∧
    is_global_attr ⟨"voltage1".data, false, none, []⟩
      "voltage0-voltage1_raw".data = 0 ∧
    detect_and_move_global_attrs
      ⟨[⟨"voltage0".data, false, none, []⟩,
        ⟨"voltage1".data, false, none, []⟩],
       ["voltage0-voltage1_raw".data]⟩ =
      some ⟨[⟨"voltage0".data, false, none, []⟩,
             ⟨"voltage1".data, false, none, []⟩],
            ["voltage0-voltage1_raw".data]⟩ := by decide

/-- Claim C7 (amended): the differential special case of `is_global_attr`
recognizes digit-free differential device attributes: with differential
channels `voltage0-voltage1` and `voltage2-voltage3` known, the
device-level attribute `in_voltage-voltage_scale` is classified as shared
(outcome 1) by both of those channels, added to each channel's attribute
list under the short name `scale`, and removed from the device-level
list.  A device attribute `in_voltage0-voltage1_raw` over plain channels
`voltage0`/`voltage1` is not shared with them; instead the second pass of
`detect_and_move_global_attrs` creates a new differential channel
`voltage0-voltage1` owning the attribute and removes it from the device
list. -/
theorem c7_differential_attr_amended :
    is_global_attr ⟨"voltage0-voltage1".data, false, none, []⟩
      "in_voltage-voltage_scale".data = 1 ∧
    is_global_attr ⟨"voltage2-voltage3".data, false, none, []⟩
      "in_voltage-voltage_scale".data = 1 ∧
    detect_and_move_global_attrs
      ⟨[⟨"voltage0-voltage1".data, false, none, []⟩,
        ⟨"voltage2-voltage3".data, false, none, []⟩],
       ["in_voltage-voltage_scale".data]⟩ =
      some ⟨[⟨"voltage0-voltage1".data, false, none,
              [("scale".data, "in_voltage-voltage_scale".data)]⟩,
             ⟨"voltage2-voltage3".data, false, none,
              [("scale".data, "in_voltage-voltage_scale".data)]⟩],
            []⟩ ∧
    detect_and_move_global_attrs
      ⟨[⟨"voltage0".data, false, none, []⟩,
        ⟨"voltage1".data, false, none, []⟩],
       ["in_voltage0-voltage1_raw".data]⟩ =
      some ⟨[⟨"voltage0".data, false, none, []⟩,
             ⟨"voltage1".data, false, none, []⟩,
             ⟨"voltage0-voltage1".data, false, none,
              [("raw".data, "in_voltage0-voltage1_raw".data)]⟩],
            []⟩ := by decide

end LocalBackend
